import Mathlib

/-!
Verification of the peer-lifecycle synchronization core of wg-key-exchange
(`wgkex/worker/netlink.py`): link-local address derivation, kernel-state
adapters, the peer reconciler `link_handler`, the stale-peer detector
`find_stale_wireguard_clients` and the sweep body `wg_flush_stale_peers`.

The Python source is shallowly embedded: bytes are `Nat` values below 256,
Python strings are Lean `String`/`List Char`, raised exceptions are modelled
by `Except`/`Option`, and kernel state (interfaces, WireGuard devices,
routes) is an explicit `Kernel` record threaded through the adapters.
-/

set_option maxRecDepth 100000

namespace Wgkex

/-! ## MD5 (embedding of `hashlib.md5`, used by `WireGuardClient.lladdr`) -/

/-- Truncation to a 32-bit word. -/
def w32 (n : Nat) : Nat := n % 4294967296

/-- Left-rotation of a 32-bit word by `s` bits. -/
def rotl32 (x s : Nat) : Nat := (x * 2 ^ s) % 4294967296 + x / 2 ^ (32 - s)

/-- MD5 per-round shift amounts. -/
def md5S : List Nat :=
 [7, 12, 17, 22, 7, 12, 17, 22, 7, 12, 17, 22, 7, 12, 17, 22,
  5, 9, 14, 20, 5, 9, 14, 20, 5, 9, 14, 20, 5, 9, 14, 20,
  4, 11, 16, 23, 4, 11, 16, 23, 4, 11, 16, 23, 4, 11, 16, 23,
  6, 10, 15, 21, 6, 10, 15, 21, 6, 10, 15, 21, 6, 10, 15, 21]

/-- MD5 round constants `floor(2^32 * abs(sin(i + 1)))`. -/
def md5K : List Nat :=
 [3614090360, 3905402710, 606105819, 3250441966, 4118548399, 1200080426, 2821735955, 4249261313,
  1770035416, 2336552879, 4294925233, 2304563134, 1804603682, 4254626195, 2792965006, 1236535329,
  4129170786, 3225465664, 643717713, 3921069994, 3593408605, 38016083, 3634488961, 3889429448,
  568446438, 3275163606, 4107603335, 1163531501, 2850285829, 4243563512, 1735328473, 2368359562,
  4294588738, 2272392833, 1839030562, 4259657740, 2763975236, 1272893353, 4139469664, 3200236656,
  681279174, 3936430074, 3572445317, 76029189, 3654602809, 3873151461, 530742520, 3299628645,
  4096336452, 1126891415, 2878612391, 4237533241, 1700485571, 2399980690, 4293915773, 2240044497,
  1873313359, 4264355552, 2734768916, 1309151649, 4149444226, 3174756917, 718787259, 3951481745]

/-- The MD5 round function for step `i` on words `b`, `c`, `d`. -/
def md5F (i b c d : Nat) : Nat :=
  if i < 16 then (b &&& c) ||| ((b ^^^ 4294967295) &&& d)
  else if i < 32 then (d &&& b) ||| ((d ^^^ 4294967295) &&& c)
  else if i < 48 then b ^^^ c ^^^ d
  else c ^^^ (b ||| (d ^^^ 4294967295))

/-- The MD5 message-word index for step `i`. -/
def md5G (i : Nat) : Nat :=
  if i < 16 then i
  else if i < 32 then (5 * i + 1) % 16
  else if i < 48 then (3 * i + 5) % 16
  else (7 * i) % 16

/-- One MD5 step on the state `(a, b, c, d)` with message words `M`. -/
def md5Step (M : List Nat) (st : Nat × Nat × Nat × Nat) (i : Nat) : Nat × Nat × Nat × Nat :=
  match st with
  | (a, b, c, d) =>
    let f := w32 (md5F i b c d + a + md5K.getD i 0 + M.getD (md5G i) 0)
    (d, w32 (b + rotl32 f (md5S.getD i 0)), b, c)

/-- Process one 512-bit chunk given as sixteen 32-bit words. -/
def md5Chunk (h : Nat × Nat × Nat × Nat) (M : List Nat) : Nat × Nat × Nat × Nat :=
  match h with
  | (a0, b0, c0, d0) =>
    match (List.range 64).foldl (md5Step M) (a0, b0, c0, d0) with
    | (a, b, c, d) => (w32 (a0 + a), w32 (b0 + b), w32 (c0 + c), w32 (d0 + d))

/-- Little-endian byte serialization of `v` on `n` bytes. -/
def toLE (n : Nat) (v : Nat) : List Nat :=
  match n with
  | 0 => []
  | k + 1 => v % 256 :: toLE k (v / 256)

/-- Group a chunk's bytes into little-endian 32-bit words. -/
def chunkWords : List Nat → List Nat
  | b0 :: b1 :: b2 :: b3 :: rest =>
    (b0 + 256 * b1 + 65536 * b2 + 16777216 * b3) :: chunkWords rest
  | _ => []

/-- MD5 padding: append `0x80`, zero-pad to 56 mod 64, append the 64-bit
little-endian bit length. -/
def md5Pad (msg : List Nat) : List Nat :=
  let len := msg.length
  msg ++ [128] ++ List.replicate ((119 - len % 64) % 64) 0 ++ toLE 8 (len * 8)

/-- Fold the MD5 compression function over the padded message's 64-byte chunks.
The `fuel` argument makes the recursion structural; any `fuel` at least the
number of chunks (`md5Digest` passes the padded length) yields the same value. -/
def md5Loop (fuel : Nat) (h : Nat × Nat × Nat × Nat) (bytes : List Nat) : Nat × Nat × Nat × Nat :=
  match fuel, bytes with
  | _, [] => h
  | 0, _ => h
  | f + 1, b :: rest => md5Loop f (md5Chunk h (chunkWords ((b :: rest).take 64))) ((b :: rest).drop 64)

/-- Serialize the final MD5 state, little-endian word by word. -/
def md5Out (q : Nat × Nat × Nat × Nat) : List Nat :=
  toLE 4 q.1 ++ toLE 4 q.2.1 ++ toLE 4 q.2.2.1 ++ toLE 4 q.2.2.2

/-- The 16-byte MD5 digest of a byte sequence. -/
def md5Digest (msg : List Nat) : List Nat :=
  md5Out (md5Loop (md5Pad msg).length (1732584193, 4023233417, 2562383102, 271733878)
    (md5Pad msg))

/-- Lowercase hexadecimal digit character for `n < 16`. -/
def hexDigitChar (n : Nat) : Char :=
  if n < 10 then Char.ofNat (48 + n) else Char.ofNat (87 + n)

/-- The two lowercase hex characters of one byte. -/
def byteToHexPair (b : Nat) : List Char := [hexDigitChar (b / 16), hexDigitChar (b % 16)]

/-- Hexadecimal rendering of a byte list (Python `hexdigest` on a digest). -/
def hexBytes (l : List Nat) : List Char := (l.map byteToHexPair).flatten

/-- The 32-character MD5 hex digest of a byte sequence (`md5(...).hexdigest()`). -/
def md5hex (msg : List Nat) : List Char := hexBytes (md5Digest msg)

/-! ## String encodings and hex formatting helpers -/

/-- Python `str.encode("ascii")`: succeeds only when every character is below
128; otherwise a `UnicodeEncodeError` is raised, modelled as `none`. -/
def encodeAscii : List Char → Option (List Nat)
  | [] => some []
  | c :: cs => if c.toNat < 128 then (encodeAscii cs).map (c.toNat :: ·) else none

/-- UTF-8 encoding of one character. -/
def utf8Char (c : Char) : List Nat :=
  let n := c.toNat
  if n < 128 then [n]
  else if n < 2048 then [192 + n / 64, 128 + n % 64]
  else if n < 65536 then [224 + n / 4096, 128 + n / 64 % 64, 128 + n % 64]
  else [240 + n / 262144, 128 + n / 4096 % 64, 128 + n / 64 % 64, 128 + n % 64]

/-- UTF-8 encoding of a string (Python `str.encode("utf-8")`, total). -/
def encodeUtf8 (s : List Char) : List Nat := (s.map utf8Char).flatten

/-- Python `textwrap.wrap(s, 2)` on a hex digest: chunks of two characters. -/
def wrapPairs : List Char → List (List Char)
  | a :: b :: rest => [a, b] :: wrapPairs rest
  | [a] => [[a]]
  | [] => []

/-- Python `":".join(...)` on a list of strings. -/
def joinColon : List (List Char) → List Char
  | [] => []
  | [x] => x
  | x :: y :: rest => x ++ ':' :: joinColon (y :: rest)

/-- Split a character list at every colon (inverse of `joinColon`). -/
def splitOnColon : List Char → List (List Char)
  | [] => [[]]
  | c :: cs =>
    match splitOnColon cs with
    | [] => if c = ':' then [[], []] else [[c]]
    | g :: gs => if c = ':' then [] :: g :: gs else (c :: g) :: gs

/-- Value of one hexadecimal digit character, if any. -/
def hexVal (c : Char) : Option Nat :=
  if 48 ≤ c.toNat ∧ c.toNat ≤ 57 then some (c.toNat - 48)
  else if 97 ≤ c.toNat ∧ c.toNat ≤ 102 then some (c.toNat - 87)
  else none

/-- Parse a two-hex-character octet. -/
def parseHexPair : List Char → Option Nat
  | [a, b] =>
    match hexVal a, hexVal b with
    | some x, some y => some (16 * x + y)
    | _, _ => none
  | _ => none

/-- Hexadecimal digits of `n`, least-significant first (empty for zero); the
structural `fuel` argument gives the same value for any `fuel ≥ n`. -/
def toHexRevFuel : Nat → Nat → List Char
  | 0, _ => []
  | f + 1, n => if n = 0 then [] else hexDigitChar (n % 16) :: toHexRevFuel f (n / 16)

/-- Hexadecimal digits of `n`, least-significant first (empty for zero). -/
def toHexRev (n : Nat) : List Char := toHexRevFuel n n

/-- Minimal lowercase hexadecimal rendering of `n` (as Python `"%x"`). -/
def toHexNat (n : Nat) : List Char := if n = 0 then ['0'] else (toHexRev n).reverse

/-- Parse a least-significant-first hexadecimal digit list. -/
def parseHexRev : List Char → Option Nat
  | [] => some 0
  | c :: cs =>
    match hexVal c, parseHexRev cs with
    | some d, some r => some (d + 16 * r)
    | _, _ => none

/-- Sequence an option-producing map over a list, failing on the first `none`
(the shape of a Python comprehension whose body may raise). -/
def optionMapList (f : α → Option β) : List α → Option (List β)
  | [] => some []
  | a :: l =>
    match f a with
    | none => none
    | some b =>
      match optionMapList f l with
      | none => none
      | some bs => some (b :: bs)

/-! ## Address formatting (`mac2eui64` model) -/

/-- Compressed textual form of the IPv6 address `fe80::` with 64-bit interface
identifier groups `g4:g5:g6:g7` (the three zero groups after `fe80` are elided;
a zero `g4` joins that elided run, as in Python `ipaddress` formatting — in the
addresses built here `g5` and `g6` are never zero). -/
def formatFe80Groups (g4 g5 g6 g7 : Nat) : List Char :=
  'f' :: 'e' :: '8' :: '0' :: ':' :: ':' ::
    (if g4 = 0 then joinColon [toHexNat g5, toHexNat g6, toHexNat g7]
     else joinColon [toHexNat g4, toHexNat g5, toHexNat g6, toHexNat g7])

/-- Modelled from the spec: `wgkex.common.utils.mac2eui64` is imported by the
worker but its module is not among the sources under verification.  Following
§4.1 of the specification, the 6-octet pseudo-hardware address is expanded into
a 64-bit modified EUI-64 interface identifier (flip the universal/local bit of
the first octet, insert `ff`/`fe` in the middle) and combined with the
`fe80::/10` link-local prefix, giving an address string that carries the
prefix length `/10`; a malformed MAC or another prefix argument yields `none`
(the Python helper returns `None` on failure). -/
def mac2eui64 (mac : List Char) (pfx : List Char) : Option (List Char) :=
  if pfx = ("fe80::/10").data then
    match optionMapList parseHexPair (splitOnColon mac) with
    | some [m0, m1, m2, m3, m4, m5] =>
      some (formatFe80Groups ((m0 ^^^ 2) * 256 + m1) (m2 * 256 + 255) (65024 + m3)
              (m4 * 256 + m5) ++ ('/' :: '1' :: '0' :: []))
    | _ => none
  else none

/-- Python `re.sub(r"/\d+$", repl, s)`: replace a trailing slash-and-digits
run by `repl`, or return `s` unchanged when the pattern does not match. -/
def subSlashNum (repl : List Char) (s : List Char) : List Char :=
  let r := s.reverse
  let ds := r.takeWhile Char.isDigit
  match r.drop ds.length with
  | '/' :: tail => if ds = [] then s else tail.reverse ++ repl
  | _ => s

/-- The link-local address text determined by the first five digest octets. -/
def addrOfBytes (b0 b1 b2 b3 b4 : Nat) : List Char :=
  formatFe80Groups b0 (b1 * 256 + 255) (65024 + b2) (b3 * 256 + b4) ++
    ('/' :: '1' :: '2' :: '8' :: [])

/-! ## `WireGuardClient` (embedding of `wgkex/worker/netlink.py`) -/

/-- A WireGuard client: public key, domain, and the remove-intent flag. -/
structure WireGuardClient where
  public_key : String
  domain : String
  remove : Bool
deriving DecidableEq

/-- Embedding of the `lladdr` property: MD5 of the ASCII-encoded public key
plus a newline byte, the first five hex-digest octets behind a leading `02`
joined into a pseudo-MAC, expanded by `mac2eui64` under `fe80::/10`, with the
trailing prefix length rewritten to `/128`.  `none` models a raised exception
(`UnicodeEncodeError` from `encode("ascii")` on a non-ASCII key, or the
`TypeError` from `re.sub` if `mac2eui64` returned `None`). -/
def WireGuardClient.lladdr (c : WireGuardClient) : Option String :=
  match encodeAscii c.public_key.data with
  | none => none
  | some keyBytes =>
    let hashed_key := md5hex (keyBytes ++ [10])
    let hash_as_list := wrapPairs hashed_key
    let current_mac_addr := joinColon (('0' :: '2' :: []) :: hash_as_list.take 5)
    match mac2eui64 current_mac_addr ("fe80::/10").data with
    | none => none
    | some a => some (String.mk (subSlashNum ('/' :: '1' :: '2' :: '8' :: []) a))

/-- The VxLAN interface name `vx-<domain>`. -/
def WireGuardClient.vx_interface (c : WireGuardClient) : String := "vx-" ++ c.domain

/-- The WireGuard interface name `wg-<domain>`. -/
def WireGuardClient.wg_interface (c : WireGuardClient) : String := "wg-" ++ c.domain

/-- The specification's reference derivation (§4.1): a 128-bit MD5 hash over
the UTF-8 bytes of the public key concatenated with a single newline byte, the
hex digest split into 2-character octets, the 6-octet pseudo-hardware address
`02:o0:o1:o2:o3:o4` expanded to a modified EUI-64 address under `fe80::/10`,
and the prefix length of the result forced to `/128`. -/
def deriveLinkLocalAddressSpec (publicKey : String) : Option String :=
  let hashed := md5hex (encodeUtf8 publicKey.data ++ [10])
  let octets := wrapPairs hashed
  let mac := joinColon (('0' :: '2' :: []) :: octets.take 5)
  match mac2eui64 mac ("fe80::/10").data with
  | none => none
  | some a => some (String.mk (subSlashNum ('/' :: '1' :: '2' :: '8' :: []) a))

/-! ## Kernel model and netlink operations -/

/-- The Python exceptions the embedded operations can raise. -/
inductive PyErr where
  /-- `str.encode("ascii")` raised `UnicodeEncodeError` on a non-ASCII key. -/
  | unicodeEncodeError : PyErr
  /-- Indexing `[0]` into the empty result of `ip.link_lookup`. -/
  | indexError : PyErr
  /-- Calling `.get` on the `None` returned by a failed `get_attr`. -/
  | attributeError : PyErr
  /-- `pyroute2.NetlinkError` with the given `errno` from a rejected kernel call. -/
  | netlinkError (code : Nat) : PyErr
deriving DecidableEq

/-- Successful netlink operation results: the request each adapter issued. -/
inductive KVal where
  /-- `wg.set(interface, peer={public_key, allowed_ips=[lladdr], remove})`. -/
  | wgSet (iface : String) (public_key : String) (allowed_ip : String) (remove : Bool) : KVal
  /-- `ip.route(op, dst, oif)`. -/
  | routeOp (op : String) (dst : String) (oif : Nat) : KVal
  /-- `ip.fdb(op, ifindex, lladdr, dst, NDA_IFINDEX)`. -/
  | fdbOp (op : String) (ifindex : Nat) (lladdr : String) (dst : String)
      (nda_ifindex : Nat) : KVal
deriving DecidableEq

/-- The `WGPEER_A_LAST_HANDSHAKE_TIME` attribute: a record whose `tv_sec`
field may be missing (Python reads it with `.get("tv_sec", int())`). -/
structure HandshakeAttr where
  tv_sec : Option Int
deriving DecidableEq

/-- One peer entry of a kernel WireGuard device dump. -/
structure WgPeerMsg where
  /-- The `WGPEER_A_PUBLIC_KEY` attribute, decoded to text. -/
  public_key : String
  /-- The `WGPEER_A_LAST_HANDSHAKE_TIME` attribute; `none` when `get_attr`
  finds no such attribute and returns `None`. -/
  last_handshake : Option HandshakeAttr
deriving DecidableEq

/-- One message of a `wg.info(interface)` reply. -/
structure WgDeviceMsg where
  /-- The `WGDEVICE_A_PEERS` attribute; `none` when absent. -/
  peers : Option (List WgPeerMsg)
deriving DecidableEq

/-- The kernel networking state visible to the embedded operations. -/
structure Kernel where
  /-- Network interfaces: name and interface index (for `ip.link_lookup`). -/
  links : List (String × Nat)
  /-- WireGuard devices: name and the messages `wg.info` returns for them. -/
  wgDevices : List (String × List WgDeviceMsg)
  /-- Destinations of the existing routes (for the `del` route operation). -/
  routes : List String
deriving DecidableEq

/-- `ip.link_lookup(ifname=name)`: the indices of the matching interfaces. -/
def Kernel.link_lookup (k : Kernel) (name : String) : List Nat :=
  (k.links.filter (fun p => p.1 == name)).map (fun p => p.2)

/-- `wg.info(name)` / `wg.set(name, ...)` target resolution: the device's
info messages, or `none` when no WireGuard device has this name. -/
def Kernel.wgInfo (k : Kernel) (name : String) : Option (List WgDeviceMsg) :=
  (k.wgDevices.find? (fun p => p.1 == name)).map (fun p => p.2)

/-- Embedding of `update_wireguard_peer`: computes the peer dict (whose
`allowed_ips` entry evaluates `client.lladdr`) and issues `wg.set` on
`client.wg_interface`; a missing WireGuard device is a rejected kernel call
(`NetlinkError(19)`, `ENODEV`). -/
def update_wireguard_peer (k : Kernel) (client : WireGuardClient) : Except PyErr KVal :=
  match client.lladdr with
  | none => .error .unicodeEncodeError
  | some lladdr =>
    match k.wgInfo client.wg_interface with
    | none => .error (.netlinkError 19)
    | some _ => .ok (.wgSet client.wg_interface client.public_key lladdr client.remove)

/-- Embedding of `route_handler`: issues `ip.route("del" | "replace")` for
`client.lladdr` via the first index `ip.link_lookup` returns for
`client.wg_interface`.  An empty lookup makes the `[0]` index raise
`IndexError`; deleting a route the kernel does not have is rejected with
`NetlinkError(3)` (`ESRCH`). -/
def route_handler (k : Kernel) (client : WireGuardClient) : Except PyErr KVal :=
  match client.lladdr with
  | none => .error .unicodeEncodeError
  | some lladdr =>
    match k.link_lookup client.wg_interface with
    | [] => .error .indexError
    | oif :: _ =>
      if client.remove then
        if lladdr ∈ k.routes then .ok (.routeOp "del" lladdr oif)
        else .error (.netlinkError 3)
      else .ok (.routeOp "replace" lladdr oif)

/-- Embedding of `bridge_fdb_handler`: issues `ip.fdb("del" | "append")` on
the first index found for `client.vx_interface`, with the all-zero MAC, the
destination `client.lladdr` stripped of its prefix length, and the first index
found for `client.wg_interface`.  The keyword arguments are evaluated left to
right, so the `vx` lookup precedes the `lladdr` computation, which precedes
the `wg` lookup; an empty lookup raises `IndexError` at its `[0]`. -/
def bridge_fdb_handler (k : Kernel) (client : WireGuardClient) : Except PyErr KVal :=
  match k.link_lookup client.vx_interface with
  | [] => .error .indexError
  | ifindex :: _ =>
    match client.lladdr with
    | none => .error .unicodeEncodeError
    | some lladdr =>
      match k.link_lookup client.wg_interface with
      | [] => .error .indexError
      | nda :: _ =>
        .ok (.fdbOp (if client.remove then "del" else "append") ifindex
          "00:00:00:00:00:00" (String.mk (subSlashNum [] lladdr.data)) nda)

/-- Decidable equality for `Except` results. -/
instance {ε α : Type} [DecidableEq ε] [DecidableEq α] : DecidableEq (Except ε α) := fun a b =>
  match a, b with
  | .error e, .error e' =>
    if h : e = e' then .isTrue (by rw [h]) else .isFalse (by intro hc; cases hc; exact h rfl)
  | .ok v, .ok v' =>
    if h : v = v' then .isTrue (by rw [h]) else .isFalse (by intro hc; cases hc; exact h rfl)
  | .error _, .ok _ => .isFalse (by intro hc; cases hc)
  | .ok _, .error _ => .isFalse (by intro hc; cases hc)

/-- An entry of the outcome map `link_handler` builds: either an adapter's
successful return value or (for the Route step only) the caught exception. -/
inductive EntryVal where
  /-- A successful netlink result stored in the outcome map. -/
  | val (v : KVal) : EntryVal
  /-- A caught exception object stored in the outcome map. -/
  | exc (e : PyErr) : EntryVal
deriving DecidableEq

/-- Result of running `link_handler`: the kernel-adapter invocations it
performed, as `(function name, public key)` pairs in call order, and either
the returned outcome map (key/value pairs in insertion order) or the
propagated exception. -/
structure LHResult where
  trace : List (String × String)
  result : Except PyErr (List (String × EntryVal))
deriving DecidableEq

/-- Embedding of `link_handler`: `update_wireguard_peer` first (its exception
propagates), then `route_handler` inside `try`/`except` (the caught exception
object replaces the `"Route"` value), then `bridge_fdb_handler` (its
exception propagates, discarding the partially built dict). -/
def link_handler (k : Kernel) (client : WireGuardClient) : LHResult :=
  match update_wireguard_peer k client with
  | .error e => ⟨[("update_wireguard_peer", client.public_key)], .error e⟩
  | .ok w =>
    match route_handler k client with
    | .ok r =>
      match bridge_fdb_handler k client with
      | .error e =>
        ⟨[("update_wireguard_peer", client.public_key), ("route_handler", client.public_key),
          ("bridge_fdb_handler", client.public_key)], .error e⟩
      | .ok b =>
        ⟨[("update_wireguard_peer", client.public_key), ("route_handler", client.public_key),
          ("bridge_fdb_handler", client.public_key)],
         .ok [("Wireguard", .val w), ("Route", .val r), ("Bridge FDB", .val b)]⟩
    | .error e =>
      match bridge_fdb_handler k client with
      | .error e2 =>
        ⟨[("update_wireguard_peer", client.public_key), ("route_handler", client.public_key),
          ("bridge_fdb_handler", client.public_key)], .error e2⟩
      | .ok b =>
        ⟨[("update_wireguard_peer", client.public_key), ("route_handler", client.public_key),
          ("bridge_fdb_handler", client.public_key)],
         .ok [("Wireguard", .val w), ("Route", .exc e), ("Bridge FDB", .val b)]⟩

/-- The staleness window constant `_PEER_TIMEOUT_HOURS`. -/
def PEER_TIMEOUT_HOURS : Int := 3

/-- One element step of the stale-filter comprehension: raises
`AttributeError` when `get_attr("WGPEER_A_LAST_HANDSHAKE_TIME")` returned
`None` (calling `.get` on `None`); otherwise selects the decoded public key
when `handshake.get("tv_sec", int())` is strictly below the cutoff. -/
def staleStep (cutoff : Int) (client : WgPeerMsg) : Except PyErr (Option String) :=
  match client.last_handshake with
  | none => .error .attributeError
  | some h => .ok (if h.tv_sec.getD 0 < cutoff then some client.public_key else none)

/-- Sequence an exception-producing map over a list, stopping at the first
raised exception (the shape of a Python list comprehension). -/
def exceptMapList (f : α → Except ε β) : List α → Except ε (List β)
  | [] => .ok []
  | a :: l =>
    match f a with
    | .error e => .error e
    | .ok b =>
      match exceptMapList f l with
      | .error e => .error e
      | .ok bs => .ok (b :: bs)

/-- The `all_clients` accumulation of `find_stale_wireguard_clients`: extend
by each message's `WGDEVICE_A_PEERS` attribute when it is truthy (present and
non-empty). -/
def collectClients (msgs : List WgDeviceMsg) : List WgPeerMsg :=
  msgs.foldl
    (fun all m =>
      match m.peers with
      | none => all
      | some clients => if clients.isEmpty then all else all ++ clients)
    []

/-- Embedding of `find_stale_wireguard_clients`: cutoff three hours before
`nowTs`, peers collected from `wg.info(wg_interface)` (which fails with
`NetlinkError(19)` when the interface does not exist), and the public keys of
the peers whose handshake field is below the cutoff, in kernel order. -/
def find_stale_wireguard_clients (k : Kernel) (nowTs : Int) (wg_interface : String) :
    Except PyErr (List String) :=
  let three_hrs_in_secs := nowTs - 3600 * PEER_TIMEOUT_HOURS
  match k.wgInfo wg_interface with
  | none => .error (.netlinkError 19)
  | some msgs =>
    match exceptMapList (staleStep three_hrs_in_secs) (collectClients msgs) with
    | .error e => .error e
    | .ok selected => .ok (selected.filterMap id)

/-- Result of running `wg_flush_stale_peers`: all kernel-adapter invocations
performed and either the collected `link_handler` outcome maps or the
propagated exception. -/
structure FlushResult where
  trace : List (String × String)
  result : Except PyErr (List (List (String × EntryVal)))
deriving DecidableEq

/-- The `[link_handler(stale_client) for stale_client in ...]` comprehension:
an exception propagating out of `link_handler` aborts the remaining peers. -/
def flushLoop (k : Kernel) : List WireGuardClient → FlushResult
  | [] => ⟨[], .ok []⟩
  | c :: rest =>
    let r := link_handler k c
    match r.result with
    | .error e => ⟨r.trace, .error e⟩
    | .ok m =>
      let tailRes := flushLoop k rest
      ⟨r.trace ++ tailRes.trace, tailRes.result.map (m :: ·)⟩

/-- Embedding of `wg_flush_stale_peers`: find the stale clients of
`wg-<domain>`, build removal clients for them, and run `link_handler` on each
in order. -/
def wg_flush_stale_peers (k : Kernel) (nowTs : Int) (domain : String) : FlushResult :=
  match find_stale_wireguard_clients k nowTs ("wg-" ++ domain) with
  | .error e => ⟨[], .error e⟩
  | .ok stale_clients =>
    flushLoop k (stale_clients.map (fun pk => WireGuardClient.mk pk domain true))

/-- The specification's staleness criterion for one collected peer (§4.4):
stale when the last-handshake timestamp is present and strictly below the
cutoff, or when it is absent or zero.  Peers whose handshake attribute record
is missing entirely are outside this predicate (the code raises on them). -/
def staleSpec (cutoff : Int) (c : WgPeerMsg) : Bool :=
  match c.last_handshake with
  | none => false
  | some h =>
    match h.tv_sec with
    | some t => decide (t < cutoff) || decide (t = 0)
    | none => true

/-- Whether an `Except` value is a success (no exception was raised). -/
def isOkE : Except ε α → Bool
  | .ok _ => true
  | .error _ => false

/-! ## Lemmas about the serialization helpers -/

theorem toLE_length (n v : Nat) : (toLE n v).length = n := by
  induction n generalizing v with
  | zero => rfl
  | succ k ih => simp [toLE, ih]

theorem toLE_lt (n v : Nat) : ∀ x ∈ toLE n v, x < 256 := by
  induction n generalizing v with
  | zero => intro x hx; cases hx
  | succ k ih =>
    intro x hx
    rcases List.mem_cons.mp hx with h | h
    · subst h; exact Nat.mod_lt _ (by omega)
    · exact ih (v / 256) x h

theorem md5Out_length (q : Nat × Nat × Nat × Nat) : (md5Out q).length = 16 := by
  simp [md5Out, toLE_length]

theorem md5Out_lt (q : Nat × Nat × Nat × Nat) : ∀ x ∈ md5Out q, x < 256 := by
  intro x hx
  simp only [md5Out, List.mem_append] at hx
  rcases hx with ((h | h) | h) | h <;> exact toLE_lt _ _ x h

theorem md5Digest_length (m : List Nat) : (md5Digest m).length = 16 :=
  md5Out_length _

theorem md5Digest_lt (m : List Nat) : ∀ x ∈ md5Digest m, x < 256 :=
  md5Out_lt _

theorem exists_cons5 (l : List Nat) (h : l.length = 16) :
    ∃ a b c d e t, l = a :: b :: c :: d :: e :: t := by
  match l, h with
  | a :: b :: c :: d :: e :: t, _ => exact ⟨a, b, c, d, e, t, rfl⟩

theorem wrapPairs_hexBytes (l : List Nat) : wrapPairs (hexBytes l) = l.map byteToHexPair := by
  induction l with
  | nil => rfl
  | cons b t ih =>
    simpa [hexBytes, byteToHexPair, wrapPairs] using ih

/-! ## Lemmas about hexadecimal formatting and parsing -/

theorem hexVal_hexDigitChar : ∀ d < 16, hexVal (hexDigitChar d) = some d := by decide

theorem hexDigitChar_ne_colon : ∀ d < 16, hexDigitChar d ≠ ':' := by decide

theorem parseHexPair_byteToHexPair : ∀ b < 256, parseHexPair (byteToHexPair b) = some b := by
  decide

theorem byteToHexPair_no_colon (b : Nat) (hb : b < 256) : ∀ c ∈ byteToHexPair b, c ≠ ':' := by
  intro c hc
  rcases List.mem_cons.mp hc with h | h
  · subst h; exact hexDigitChar_ne_colon _ (by omega)
  · rcases List.mem_singleton.mp h with rfl
    exact hexDigitChar_ne_colon _ (Nat.mod_lt _ (by omega))

theorem parseHexRev_toHexRevFuel (f : Nat) : ∀ n ≤ f, parseHexRev (toHexRevFuel f n) = some n := by
  induction f with
  | zero =>
    intro n hn
    interval_cases n
    rfl
  | succ f ih =>
    intro n hn
    by_cases hz : n = 0
    · simp [toHexRevFuel, hz, parseHexRev]
    · have hdiv : n / 16 < n := Nat.div_lt_self (Nat.pos_of_ne_zero hz) (by omega)
      simp only [toHexRevFuel, hz, if_false, parseHexRev]
      rw [hexVal_hexDigitChar _ (Nat.mod_lt _ (by omega)), ih (n / 16) (by omega)]
      simp only [Option.some.injEq]
      omega

theorem parseHexRev_toHexRev (n : Nat) : parseHexRev (toHexRev n) = some n :=
  parseHexRev_toHexRevFuel n n le_rfl

theorem toHexRev_inj {n m : Nat} (h : toHexRev n = toHexRev m) : n = m := by
  have h1 := parseHexRev_toHexRev n
  rw [h, parseHexRev_toHexRev m] at h1
  exact (Option.some.injEq _ _ ▸ h1).symm

theorem toHexNat_inj {n m : Nat} (h : toHexNat n = toHexNat m) : n = m := by
  unfold toHexNat at h
  by_cases hn : n = 0 <;> by_cases hm : m = 0
  · omega
  · rw [if_pos hn, if_neg hm] at h
    have hrev : toHexRev m = ['0'] := by
      have h2 := congrArg List.reverse h
      simpa using h2.symm
    have h3 := parseHexRev_toHexRev m
    rw [hrev, show parseHexRev ['0'] = some 0 from by decide] at h3
    simp at h3
    omega
  · rw [if_neg hn, if_pos hm] at h
    have hrev : toHexRev n = ['0'] := by
      have h2 := congrArg List.reverse h
      simpa using h2
    have h3 := parseHexRev_toHexRev n
    rw [hrev, show parseHexRev ['0'] = some 0 from by decide] at h3
    simp at h3
    omega
  · rw [if_neg hn, if_neg hm] at h
    exact toHexRev_inj (List.reverse_injective h)

theorem toHexRevFuel_no_colon (f : Nat) : ∀ n, ∀ c ∈ toHexRevFuel f n, c ≠ ':' := by
  induction f with
  | zero => intro n c hc; cases hc
  | succ f ih =>
    intro n c hc
    by_cases hz : n = 0
    · simp [toHexRevFuel, hz] at hc
    · simp only [toHexRevFuel, hz, if_false] at hc
      rcases List.mem_cons.mp hc with h | h
      · subst h; exact hexDigitChar_ne_colon _ (Nat.mod_lt _ (by omega))
      · exact ih (n / 16) c h

theorem toHexNat_no_colon (n : Nat) : ∀ c ∈ toHexNat n, c ≠ ':' := by
  intro c hc
  unfold toHexNat at hc
  by_cases hz : n = 0
  · rw [if_pos hz] at hc
    rcases List.mem_singleton.mp hc with rfl
    decide
  · rw [if_neg hz, List.mem_reverse] at hc
    exact toHexRevFuel_no_colon n n c hc

/-! ## Lemmas about colon splitting and joining -/

theorem splitOnColon_ne_nil (l : List Char) : splitOnColon l ≠ [] := by
  cases l with
  | nil => simp [splitOnColon]
  | cons c cs =>
    simp only [splitOnColon]
    by_cases hc : c = ':' <;> cases h : splitOnColon cs <;> simp [hc]

theorem splitOnColon_no_colon (l : List Char) (h : ∀ c ∈ l, c ≠ ':') :
    splitOnColon l = [l] := by
  induction l with
  | nil => rfl
  | cons c cs ih =>
    have hc : c ≠ ':' := h c (by simp)
    have ih' := ih (fun x hx => h x (List.mem_cons_of_mem c hx))
    simp [splitOnColon, ih', hc]

theorem splitOnColon_append_colon (l r : List Char) (h : ∀ c ∈ l, c ≠ ':') :
    splitOnColon (l ++ ':' :: r) = l :: splitOnColon r := by
  induction l with
  | nil =>
    simp only [List.nil_append, splitOnColon]
    cases hr : splitOnColon r with
    | nil => exact absurd hr (splitOnColon_ne_nil r)
    | cons g gs => simp
  | cons c cs ih =>
    have hc : c ≠ ':' := h c (by simp)
    have ih' := ih (fun x hx => h x (List.mem_cons_of_mem c hx))
    simp only [List.cons_append, splitOnColon, hc, if_false]
    rw [List.append_eq, ih']

theorem splitOnColon_joinColon (gs : List (List Char)) (hne : gs ≠ [])
    (h : ∀ g ∈ gs, ∀ c ∈ g, c ≠ ':') : splitOnColon (joinColon gs) = gs := by
  induction gs with
  | nil => exact absurd rfl hne
  | cons g rest ih =>
    cases rest with
    | nil => exact splitOnColon_no_colon g (h g (by simp))
    | cons g2 t =>
      have step : joinColon (g :: g2 :: t) = g ++ ':' :: joinColon (g2 :: t) := rfl
      rw [step, splitOnColon_append_colon g _ (h g (by simp)),
        ih (by simp) (fun x hx => h x (List.mem_cons_of_mem g hx))]

/-! ## Lemmas about the regex substitution and encodings -/

theorem subSlashNum_slash10 (repl x : List Char) :
    subSlashNum repl (x ++ ('/' :: '1' :: '0' :: [])) = x ++ repl := by
  unfold subSlashNum
  have hrev : (x ++ ('/' :: '1' :: '0' :: [])).reverse = '0' :: '1' :: '/' :: x.reverse := by
    simp
  have htake : List.takeWhile Char.isDigit ('0' :: '1' :: '/' :: x.reverse) = ['0', '1'] := by
    rw [List.takeWhile_cons_of_pos (by decide), List.takeWhile_cons_of_pos (by decide),
      List.takeWhile_cons_of_neg (by decide)]
  rw [hrev]
  simp only [htake]
  simp

theorem utf8Char_ascii (c : Char) (h : c.toNat < 128) : utf8Char c = [c.toNat] := by
  simp [utf8Char, h]

theorem encodeUtf8_of_ascii (s : List Char) (bs : List Nat) (h : encodeAscii s = some bs) :
    encodeUtf8 s = bs := by
  induction s generalizing bs with
  | nil =>
    simp [encodeAscii] at h
    simp [encodeUtf8, ← h]
  | cons c cs ih =>
    by_cases hc : c.toNat < 128
    · simp only [encodeAscii, hc, if_true] at h
      cases henc : encodeAscii cs with
      | none => rw [henc] at h; simp at h
      | some bs' =>
        rw [henc] at h
        simp at h
        rw [← h]
        simp [encodeUtf8, utf8Char_ascii c hc] at ih ⊢
        exact ih bs' henc
    · simp [encodeAscii, hc] at h

theorem encodeAscii_of_all_lt (s : List Char) (h : ∀ c ∈ s, c.toNat < 128) :
    ∃ bs, encodeAscii s = some bs := by
  induction s with
  | nil => exact ⟨[], rfl⟩
  | cons c cs ih =>
    obtain ⟨bs, hbs⟩ := ih (fun x hx => h x (List.mem_cons_of_mem c hx))
    exact ⟨c.toNat :: bs, by simp [encodeAscii, h c (by simp), hbs]⟩

/-! ## Evaluation of the address-derivation pipeline -/

theorem parseHexPair_02 : parseHexPair ('0' :: '2' :: []) = some 2 := by decide

theorem mac2eui64_pipeline (m : List Nat) (b0 b1 b2 b3 b4 : Nat) (t : List Nat)
    (hdg : md5Digest m = b0 :: b1 :: b2 :: b3 :: b4 :: t)
    (h0 : b0 < 256) (h1 : b1 < 256) (h2 : b2 < 256) (h3 : b3 < 256) (h4 : b4 < 256) :
    mac2eui64 (joinColon (('0' :: '2' :: []) :: (wrapPairs (md5hex m)).take 5))
      ("fe80::/10").data
    = some (formatFe80Groups b0 (b1 * 256 + 255) (65024 + b2) (b3 * 256 + b4) ++
        ('/' :: '1' :: '0' :: [])) := by
  have hw : wrapPairs (md5hex m) = (md5Digest m).map byteToHexPair := wrapPairs_hexBytes _
  rw [hw, hdg]
  have htk : ((b0 :: b1 :: b2 :: b3 :: b4 :: t).map byteToHexPair).take 5 =
      [byteToHexPair b0, byteToHexPair b1, byteToHexPair b2, byteToHexPair b3,
       byteToHexPair b4] := by
    simp
  rw [htk]
  unfold mac2eui64
  rw [if_pos rfl]
  have hfree : ∀ g ∈ (('0' :: '2' :: []) ::
      [byteToHexPair b0, byteToHexPair b1, byteToHexPair b2, byteToHexPair b3,
       byteToHexPair b4] : List (List Char)), ∀ c ∈ g, c ≠ ':' := by
    intro g hg c hc
    simp only [List.mem_cons] at hg
    rcases hg with rfl | rfl | rfl | rfl | rfl | rfl | hg
    · rcases List.mem_cons.mp hc with rfl | hc2
      · decide
      · rcases List.mem_singleton.mp hc2 with rfl; decide
    · exact byteToHexPair_no_colon b0 h0 c hc
    · exact byteToHexPair_no_colon b1 h1 c hc
    · exact byteToHexPair_no_colon b2 h2 c hc
    · exact byteToHexPair_no_colon b3 h3 c hc
    · exact byteToHexPair_no_colon b4 h4 c hc
    · cases hg
  rw [splitOnColon_joinColon _ (by simp) hfree]
  have hmap : optionMapList parseHexPair (('0' :: '2' :: []) ::
      [byteToHexPair b0, byteToHexPair b1, byteToHexPair b2, byteToHexPair b3,
       byteToHexPair b4]) = some [2, b0, b1, b2, b3, b4] := by
    simp only [optionMapList, parseHexPair_02, parseHexPair_byteToHexPair b0 h0,
      parseHexPair_byteToHexPair b1 h1, parseHexPair_byteToHexPair b2 h2,
      parseHexPair_byteToHexPair b3 h3, parseHexPair_byteToHexPair b4 h4]
  rw [hmap]
  have hx : ((2 : Nat) ^^^ 2) * 256 + b0 = b0 := by
    rw [show (2 : Nat) ^^^ 2 = 0 from rfl]
    omega
  simp [hx]

theorem lladdr_eval (key d : String) (r : Bool) (bs : List Nat)
    (henc : encodeAscii key.data = some bs) :
    ∃ b0 b1 b2 b3 b4 t,
      md5Digest (bs ++ [10]) = b0 :: b1 :: b2 :: b3 :: b4 :: t ∧
      b0 < 256 ∧ b1 < 256 ∧ b2 < 256 ∧ b3 < 256 ∧ b4 < 256 ∧
      (WireGuardClient.mk key d r).lladdr = some (String.mk (addrOfBytes b0 b1 b2 b3 b4)) := by
  obtain ⟨b0, b1, b2, b3, b4, t, hdg⟩ := exists_cons5 _ (md5Digest_length (bs ++ [10]))
  have hb0 : b0 < 256 := md5Digest_lt _ b0 (by rw [hdg]; simp)
  have hb1 : b1 < 256 := md5Digest_lt _ b1 (by rw [hdg]; simp)
  have hb2 : b2 < 256 := md5Digest_lt _ b2 (by rw [hdg]; simp)
  have hb3 : b3 < 256 := md5Digest_lt _ b3 (by rw [hdg]; simp)
  have hb4 : b4 < 256 := md5Digest_lt _ b4 (by rw [hdg]; simp)
  refine ⟨b0, b1, b2, b3, b4, t, hdg, hb0, hb1, hb2, hb3, hb4, ?_⟩
  unfold WireGuardClient.lladdr
  simp only [henc]
  rw [mac2eui64_pipeline _ b0 b1 b2 b3 b4 t hdg hb0 hb1 hb2 hb3 hb4]
  simp only [subSlashNum_slash10]
  rfl

theorem deriveSpec_eval (key : String) (b0 b1 b2 b3 b4 : Nat) (t : List Nat)
    (hdg : md5Digest (encodeUtf8 key.data ++ [10]) = b0 :: b1 :: b2 :: b3 :: b4 :: t)
    (h0 : b0 < 256) (h1 : b1 < 256) (h2 : b2 < 256) (h3 : b3 < 256) (h4 : b4 < 256) :
    deriveLinkLocalAddressSpec key = some (String.mk (addrOfBytes b0 b1 b2 b3 b4)) := by
  unfold deriveLinkLocalAddressSpec
  simp only [mac2eui64_pipeline _ b0 b1 b2 b3 b4 t hdg h0 h1 h2 h3 h4, subSlashNum_slash10]
  rfl

/-! ## Injectivity of the address formatting -/

theorem hexTriple_no_colon (a b c : Nat) :
    ∀ g ∈ ([toHexNat a, toHexNat b, toHexNat c] : List (List Char)), ∀ ch ∈ g, ch ≠ ':' := by
  intro g hg ch hch
  simp only [List.mem_cons, List.not_mem_nil, or_false] at hg
  rcases hg with rfl | rfl | rfl <;> exact toHexNat_no_colon _ ch hch

theorem hexQuad_no_colon (a b c d : Nat) :
    ∀ g ∈ ([toHexNat a, toHexNat b, toHexNat c, toHexNat d] : List (List Char)),
      ∀ ch ∈ g, ch ≠ ':' := by
  intro g hg ch hch
  simp only [List.mem_cons, List.not_mem_nil, or_false] at hg
  rcases hg with rfl | rfl | rfl | rfl <;> exact toHexNat_no_colon _ ch hch

theorem formatFe80Groups_inj (g4 g5 g6 g7 h4 h5 h6 h7 : Nat)
    (h : formatFe80Groups g4 g5 g6 g7 = formatFe80Groups h4 h5 h6 h7) :
    g4 = h4 ∧ g5 = h5 ∧ g6 = h6 ∧ g7 = h7 := by
  unfold formatFe80Groups at h
  simp only [List.cons.injEq, true_and] at h
  by_cases hz : g4 = 0 <;> by_cases hz' : h4 = 0
  · rw [if_pos hz, if_pos hz'] at h
    have hs := congrArg splitOnColon h
    rw [splitOnColon_joinColon _ (by simp) (hexTriple_no_colon g5 g6 g7),
      splitOnColon_joinColon _ (by simp) (hexTriple_no_colon h5 h6 h7)] at hs
    simp only [List.cons.injEq, and_true] at hs
    exact ⟨by omega, toHexNat_inj hs.1, toHexNat_inj hs.2.1, toHexNat_inj hs.2.2⟩
  · rw [if_pos hz, if_neg hz'] at h
    have hs := congrArg splitOnColon h
    rw [splitOnColon_joinColon _ (by simp) (hexTriple_no_colon g5 g6 g7),
      splitOnColon_joinColon _ (by simp) (hexQuad_no_colon h4 h5 h6 h7)] at hs
    have hlen := congrArg List.length hs
    simp at hlen
  · rw [if_neg hz, if_pos hz'] at h
    have hs := congrArg splitOnColon h
    rw [splitOnColon_joinColon _ (by simp) (hexQuad_no_colon g4 g5 g6 g7),
      splitOnColon_joinColon _ (by simp) (hexTriple_no_colon h5 h6 h7)] at hs
    have hlen := congrArg List.length hs
    simp at hlen
  · rw [if_neg hz, if_neg hz'] at h
    have hs := congrArg splitOnColon h
    rw [splitOnColon_joinColon _ (by simp) (hexQuad_no_colon g4 g5 g6 g7),
      splitOnColon_joinColon _ (by simp) (hexQuad_no_colon h4 h5 h6 h7)] at hs
    simp only [List.cons.injEq, and_true] at hs
    exact ⟨toHexNat_inj hs.1, toHexNat_inj hs.2.1, toHexNat_inj hs.2.2.1,
      toHexNat_inj hs.2.2.2⟩

theorem addrOfBytes_inj (a0 a1 a2 a3 a4 c0 c1 c2 c3 c4 : Nat)
    (ha0 : a0 < 256) (ha1 : a1 < 256) (ha2 : a2 < 256) (ha3 : a3 < 256) (ha4 : a4 < 256)
    (hc0 : c0 < 256) (hc1 : c1 < 256) (hc2 : c2 < 256) (hc3 : c3 < 256) (hc4 : c4 < 256)
    (h : addrOfBytes a0 a1 a2 a3 a4 = addrOfBytes c0 c1 c2 c3 c4) :
    a0 = c0 ∧ a1 = c1 ∧ a2 = c2 ∧ a3 = c3 ∧ a4 = c4 := by
  unfold addrOfBytes at h
  have h2 := List.append_cancel_right h
  obtain ⟨e4, e5, e6, e7⟩ := formatFe80Groups_inj _ _ _ _ _ _ _ _ h2
  exact ⟨e4, by omega, by omega, by omega, by omega⟩

/-! ## Claims about the address derivation (C1, C7, C9) -/

/-- C1 (amended: restricted to ASCII public keys, the only ones the code
accepts): for every ASCII public key string `k` and domain `d`, the derived
link-local address `WireGuardClient(k, d, r).lladdr` equals the reference
derivation of the specification (MD5 over the UTF-8 key bytes plus a newline
byte, 2-hex-character octets, pseudo-hardware address `02:o0:o1:o2:o3:o4`,
modified EUI-64 expansion under `fe80::/10`, prefix length forced to `/128`);
the derivation is deterministic (independent of domain and remove flag, hence
the same on every call), and the result always carries prefix length `/128`. -/
theorem C1_lladdr_matches_reference (k d : String) (r : Bool)
    (hascii : ∀ c ∈ k.data, c.toNat < 128) :
    (WireGuardClient.mk k d r).lladdr = deriveLinkLocalAddressSpec k ∧
    (∀ (d2 : String) (r2 : Bool),
      (WireGuardClient.mk k d r).lladdr = (WireGuardClient.mk k d2 r2).lladdr) ∧
    ∃ body : List Char,
      (WireGuardClient.mk k d r).lladdr =
        some (String.mk (body ++ ('/' :: '1' :: '2' :: '8' :: []))) := by
  obtain ⟨bs, hbs⟩ := encodeAscii_of_all_lt k.data hascii
  obtain ⟨b0, b1, b2, b3, b4, t, hdg, hb0, hb1, hb2, hb3, hb4, heq⟩ := lladdr_eval k d r bs hbs
  have hutf : encodeUtf8 k.data = bs := encodeUtf8_of_ascii _ _ hbs
  have hspec : deriveLinkLocalAddressSpec k = some (String.mk (addrOfBytes b0 b1 b2 b3 b4)) := by
    apply deriveSpec_eval k b0 b1 b2 b3 b4 t _ hb0 hb1 hb2 hb3 hb4
    rw [hutf]
    exact hdg
  refine ⟨by rw [heq, hspec], fun d2 r2 => rfl,
    ⟨formatFe80Groups b0 (b1 * 256 + 255) (65024 + b2) (b3 * 256 + b4), heq⟩⟩

/-- C1 witness: the amended statement instantiated at the ASCII key
`testkey` and domain `ffmuc`. -/
theorem C1_lladdr_matches_reference_witness :
    (∀ c ∈ ("testkey" : String).data, c.toNat < 128) ∧
    ((WireGuardClient.mk "testkey" "ffmuc" false).lladdr =
        deriveLinkLocalAddressSpec "testkey" ∧
      (∀ (d2 : String) (r2 : Bool),
        (WireGuardClient.mk "testkey" "ffmuc" false).lladdr =
          (WireGuardClient.mk "testkey" d2 r2).lladdr) ∧
      ∃ body : List Char,
        (WireGuardClient.mk "testkey" "ffmuc" false).lladdr =
          some (String.mk (body ++ ('/' :: '1' :: '2' :: '8' :: [])))) :=
  ⟨by decide, C1_lladdr_matches_reference "testkey" "ffmuc" false (by decide)⟩

/-- C1 counterexample: for the non-ASCII key `é` the code path raises
`UnicodeEncodeError` from `encode("ascii")` (modelled as `none`) while the
specification's reference derivation hashes the UTF-8 bytes and produces an
address, so the claimed equality fails for this key. -/
theorem C1_counterexample :
    (WireGuardClient.mk "é" "ffmuc" false).lladdr ≠ deriveLinkLocalAddressSpec "é" := by
  decide

/-- C7 (amended: restricted to ASCII public keys): for every ASCII string
input the derivation never fails — it produces a value (no exception path). -/
theorem C7_no_error_on_ascii (k d : String) (r : Bool)
    (hascii : ∀ c ∈ k.data, c.toNat < 128) :
    ((WireGuardClient.mk k d r).lladdr).isSome = true := by
  obtain ⟨bs, hbs⟩ := encodeAscii_of_all_lt k.data hascii
  obtain ⟨b0, b1, b2, b3, b4, t, hdg, hb0, hb1, hb2, hb3, hb4, heq⟩ := lladdr_eval k d r bs hbs
  rw [heq]
  rfl

/-- C7 witness: the amended statement instantiated at the specification's
golden-value key. -/
theorem C7_no_error_on_ascii_witness :
    (∀ c ∈ ("AAAAAAAAAAAAAAAAAAAAAAAAAAAAAAAAAAAAAAA=" : String).data, c.toNat < 128) ∧
    ((WireGuardClient.mk "AAAAAAAAAAAAAAAAAAAAAAAAAAAAAAAAAAAAAAA=" "ffmuc" false).lladdr).isSome
      = true :=
  ⟨by decide,
    C7_no_error_on_ascii "AAAAAAAAAAAAAAAAAAAAAAAAAAAAAAAAAAAAAAA=" "ffmuc" false (by decide)⟩

/-- C7 counterexample: the derivation does fail on the non-ASCII string
`ü` — `encode("ascii")` raises `UnicodeEncodeError` (modelled as `none`), so
"any string input produces a deterministic output, no exception is ever
raised" is false as stated. -/
theorem C7_counterexample : (WireGuardClient.mk "ü" "ffmuc" true).lladdr = none := by
  decide

/-- C9 (amended: distinct keys can collide because only the first five MD5
digest octets reach the address, but): for every two public keys whose MD5
digests of the key bytes plus newline differ somewhere within the first five
octets, the derived link-local addresses differ, for any domains and remove
flags. -/
theorem C9_lladdr_inj (k1 k2 d1 d2 : String) (r1 r2 : Bool) (bs1 bs2 : List Nat)
    (h1 : encodeAscii k1.data = some bs1) (h2 : encodeAscii k2.data = some bs2)
    (hne : (md5Digest (bs1 ++ [10])).take 5 ≠ (md5Digest (bs2 ++ [10])).take 5) :
    (WireGuardClient.mk k1 d1 r1).lladdr ≠ (WireGuardClient.mk k2 d2 r2).lladdr := by
  obtain ⟨a0, a1, a2, a3, a4, t1, hdg1, ha0, ha1, ha2, ha3, ha4, heq1⟩ :=
    lladdr_eval k1 d1 r1 bs1 h1
  obtain ⟨c0, c1, c2, c3, c4, t2, hdg2, hc0, hc1, hc2, hc3, hc4, heq2⟩ :=
    lladdr_eval k2 d2 r2 bs2 h2
  rw [heq1, heq2]
  intro hcontra
  simp only [Option.some.injEq] at hcontra
  have hd : addrOfBytes a0 a1 a2 a3 a4 = addrOfBytes c0 c1 c2 c3 c4 :=
    congrArg String.data hcontra
  obtain ⟨e0, e1, e2, e3, e4⟩ :=
    addrOfBytes_inj a0 a1 a2 a3 a4 c0 c1 c2 c3 c4 ha0 ha1 ha2 ha3 ha4 hc0 hc1 hc2 hc3 hc4 hd
  apply hne
  rw [hdg1, hdg2]
  simp [e0, e1, e2, e3, e4]

/-- C9 witness: the amended statement instantiated at the keys `a` and `b`,
whose digests differ in the first octet already. -/
theorem C9_lladdr_inj_witness :
    (WireGuardClient.mk "a" "ffmuc" false).lladdr ≠
      (WireGuardClient.mk "b" "ffmuc" true).lladdr :=
  C9_lladdr_inj "a" "b" "ffmuc" "ffmuc" false true [97] [98] (by decide) (by decide) (by decide)

/-- C9 counterexample: the distinct keys `key138054` and `key1992039` have
MD5 digests (of key plus newline) agreeing on the first five octets, so they
derive the same link-local address — two different public keys can map to the
same address. -/
theorem C9_counterexample :
    ("key138054" : String) ≠ "key1992039" ∧
    (WireGuardClient.mk "key138054" "ffmuc" false).lladdr =
      (WireGuardClient.mk "key1992039" "ffmuc" false).lladdr := by
  exact ⟨by decide, by decide⟩

/-- Check the derivation on a small key against the value computed by the
Python implementation. -/
theorem lladdr_vector_ek :
    (WireGuardClient.mk "ek" "ffmuc" false).lladdr = some "fe80::6e:2fff:fea3:900a/128" := by
  decide

/-- Check the derivation on a key whose digest starts with a zero octet, the
case where the address text elides the first interface-identifier group. -/
theorem lladdr_vector_zero_octet :
    (WireGuardClient.mk "z62" "ffmuc" false).lladdr = some "fe80::ebff:fec7:f397/128" := by
  decide

/-! ## Lemmas and claims about the stale-peer detector (C2, C10) -/

theorem exceptMapList_stale (cutoff : Int) (hcut : 0 < cutoff) (l : List WgPeerMsg)
    (hall : ∀ c ∈ l, (c.last_handshake).isSome = true) :
    exceptMapList (staleStep cutoff) l =
      .ok (l.map fun c => if staleSpec cutoff c then some c.public_key else none) := by
  induction l with
  | nil => rfl
  | cons c l ih =>
    have hc := hall c (by simp)
    cases hlh : c.last_handshake with
    | none => rw [hlh] at hc; cases hc
    | some hs =>
      have ih' := ih (fun x hx => hall x (List.mem_cons_of_mem c hx))
      cases hts : hs.tv_sec with
      | none =>
        simp only [exceptMapList, staleStep, hlh, hts, ih']
        simp [staleSpec, hlh, hts, hcut]
      | some tv =>
        simp only [exceptMapList, staleStep, hlh, hts, ih']
        by_cases htv : tv = 0
        · simp [staleSpec, hlh, hts, htv, hcut]
        · simp [staleSpec, hlh, hts, htv]

theorem exceptMapList_stale_error (cutoff : Int) (l : List WgPeerMsg)
    (hex : ∃ c ∈ l, c.last_handshake = none) :
    exceptMapList (staleStep cutoff) l = .error .attributeError := by
  induction l with
  | nil => rcases hex with ⟨c, hc, _⟩; cases hc
  | cons c0 l ih =>
    rcases hex with ⟨c, hc, hnone⟩
    rcases List.mem_cons.mp hc with rfl | hmem
    · simp [exceptMapList, staleStep, hnone]
    · cases hlh : c0.last_handshake with
      | none => simp [exceptMapList, staleStep, hlh]
      | some hs => simp [exceptMapList, staleStep, hlh, ih ⟨c, hmem, hnone⟩]

/-- C2: for every kernel peer dump of an existing WireGuard interface in which
each peer carries a handshake attribute record, and every current time `T`
with a positive cutoff `T − 3h`, `find_stale_wireguard_clients` returns
exactly the public keys of the peers whose handshake timestamp is present and
strictly below the cutoff or absent or zero, in kernel order (a `filterMap`
over the collected peers, with no re-sorting). -/
theorem C2_find_stale_filter (k : Kernel) (nowTs : Int) (iface : String)
    (msgs : List WgDeviceMsg) (hinfo : k.wgInfo iface = some msgs)
    (hall : ∀ c ∈ collectClients msgs, (c.last_handshake).isSome = true)
    (hcut : 0 < nowTs - 3600 * PEER_TIMEOUT_HOURS) :
    find_stale_wireguard_clients k nowTs iface =
      .ok ((collectClients msgs).filterMap
        (fun c => if staleSpec (nowTs - 3600 * PEER_TIMEOUT_HOURS) c then some c.public_key
          else none)) := by
  unfold find_stale_wireguard_clients
  simp only [hinfo]
  rw [exceptMapList_stale _ hcut _ hall]
  simp [List.filterMap_map, Function.comp_def]

/-- C2 witness: the concrete scenario with `T = 1700000000` — peer `A` with
last handshake at `T − 4h`, peer `B` at `T − 1h`, peer `C` with a handshake
record missing its `tv_sec` — yields exactly `[A, C]` in kernel order. -/
theorem C2_find_stale_filter_witness :
    ((0 : Int) < 1700000000 - 3600 * PEER_TIMEOUT_HOURS) ∧
    find_stale_wireguard_clients
      ⟨[], [("wg-welt",
        [⟨some [⟨"A", some ⟨some 1699985600⟩⟩, ⟨"B", some ⟨some 1699996400⟩⟩,
          ⟨"C", some ⟨none⟩⟩]⟩])], []⟩
      1700000000 "wg-welt" = .ok ["A", "C"] := by
  refine ⟨by decide, ?_⟩
  have h := C2_find_stale_filter
    ⟨[], [("wg-welt",
      [⟨some [⟨"A", some ⟨some 1699985600⟩⟩, ⟨"B", some ⟨some 1699996400⟩⟩,
        ⟨"C", some ⟨none⟩⟩]⟩])], []⟩
    1700000000 "wg-welt"
    [⟨some [⟨"A", some ⟨some 1699985600⟩⟩, ⟨"B", some ⟨some 1699996400⟩⟩,
      ⟨"C", some ⟨none⟩⟩]⟩]
    (by decide) (by decide) (by decide)
  exact h.trans (by decide)

/-- C10: when some collected peer entry has no
`WGPEER_A_LAST_HANDSHAKE_TIME` attribute at all (`get_attr` returns `None`),
`find_stale_wireguard_clients` raises (`AttributeError` from `None.get`)
instead of returning normally. -/
theorem C10_missing_attr_raises (k : Kernel) (nowTs : Int) (iface : String)
    (msgs : List WgDeviceMsg) (hinfo : k.wgInfo iface = some msgs)
    (hex : ∃ c ∈ collectClients msgs, c.last_handshake = none) :
    find_stale_wireguard_clients k nowTs iface = .error .attributeError := by
  unfold find_stale_wireguard_clients
  simp only [hinfo]
  rw [exceptMapList_stale_error _ _ hex]

/-- C10 witness: a peer with the handshake attribute entirely absent makes
the detector raise. -/
theorem C10_missing_attr_raises_witness :
    find_stale_wireguard_clients ⟨[], [("wg-xx", [⟨some [⟨"D", none⟩]⟩])], []⟩
      1700000000 "wg-xx" = .error .attributeError :=
  C10_missing_attr_raises _ 1700000000 "wg-xx" [⟨some [⟨"D", none⟩]⟩] (by decide)
    ⟨⟨"D", none⟩, by decide, rfl⟩

/-! ## Claims about the peer reconciler (C3, C4, C5) -/

/-- C3: when `update_wireguard_peer` raises, `link_handler` propagates that
same error, the reconciliation is aborted, and neither `route_handler` nor
`bridge_fdb_handler` is invoked (the call trace holds only the WireGuard
adapter invocation). -/
theorem C3_wireguard_error_aborts (k : Kernel) (c : WireGuardClient) (e : PyErr)
    (h : update_wireguard_peer k c = .error e) :
    link_handler k c = ⟨[("update_wireguard_peer", c.public_key)], .error e⟩ := by
  unfold link_handler
  rw [h]

/-- C3 witness: on an empty kernel the WireGuard device is missing, the
adapter raises `NetlinkError(19)`, and `link_handler` stops there. -/
theorem C3_wireguard_error_aborts_witness :
    update_wireguard_peer ⟨[], [], []⟩ (WireGuardClient.mk "wgkey" "dom" false) =
      .error (.netlinkError 19) ∧
    link_handler ⟨[], [], []⟩ (WireGuardClient.mk "wgkey" "dom" false) =
      ⟨[("update_wireguard_peer", "wgkey")], .error (.netlinkError 19)⟩ :=
  ⟨by decide,
    C3_wireguard_error_aborts ⟨[], [], []⟩ (WireGuardClient.mk "wgkey" "dom" false)
      (.netlinkError 19) (by decide)⟩

/-- C4: when `update_wireguard_peer` succeeded and `route_handler` raises,
`link_handler` catches the exception, still invokes `bridge_fdb_handler`, and
any outcome map it returns holds the caught exception object itself under the
key `Route`. -/
theorem C4_route_error_caught (k : Kernel) (c : WireGuardClient) (w : KVal) (e : PyErr)
    (hw : update_wireguard_peer k c = .ok w) (hr : route_handler k c = .error e) :
    (link_handler k c).trace =
      [("update_wireguard_peer", c.public_key), ("route_handler", c.public_key),
       ("bridge_fdb_handler", c.public_key)] ∧
    ∀ m, (link_handler k c).result = .ok m → m.lookup "Route" = some (.exc e) := by
  unfold link_handler
  cases hf : bridge_fdb_handler k c with
  | error e2 =>
    simp only [hw, hr, hf]
    exact ⟨trivial, fun m hm => by simp at hm⟩
  | ok b =>
    simp only [hw, hr, hf]
    refine ⟨trivial, fun m hm => ?_⟩
    simp only [Except.ok.injEq] at hm
    subst hm
    rfl

/-- C4 witness: WireGuard and VxLAN interfaces exist but the route table is
empty, so the removal's route deletion is rejected; the FDB step still runs
and the outcome map records the caught `NetlinkError(3)` under `Route`. -/
theorem C4_route_error_caught_witness :
    update_wireguard_peer ⟨[("wg-dom", 3), ("vx-dom", 4)], [("wg-dom", [])], []⟩
        (WireGuardClient.mk "rkey" "dom" true) =
      .ok (.wgSet "wg-dom" "rkey" "fe80::5f:2bff:fe88:6ce9/128" true) ∧
    route_handler ⟨[("wg-dom", 3), ("vx-dom", 4)], [("wg-dom", [])], []⟩
        (WireGuardClient.mk "rkey" "dom" true) =
      .error (.netlinkError 3) ∧
    ((link_handler ⟨[("wg-dom", 3), ("vx-dom", 4)], [("wg-dom", [])], []⟩
        (WireGuardClient.mk "rkey" "dom" true)).trace =
      [("update_wireguard_peer", "rkey"), ("route_handler", "rkey"),
       ("bridge_fdb_handler", "rkey")] ∧
     ∀ m, (link_handler ⟨[("wg-dom", 3), ("vx-dom", 4)], [("wg-dom", [])], []⟩
        (WireGuardClient.mk "rkey" "dom" true)).result = .ok m →
       m.lookup "Route" = some (.exc (.netlinkError 3))) :=
  ⟨by decide, by decide,
    C4_route_error_caught ⟨[("wg-dom", 3), ("vx-dom", 4)], [("wg-dom", [])], []⟩
      (WireGuardClient.mk "rkey" "dom" true)
      (.wgSet "wg-dom" "rkey" "fe80::5f:2bff:fe88:6ce9/128" true) (.netlinkError 3)
      (by decide) (by decide)⟩

/-- C5: `link_handler` invokes the adapters in the fixed order WireGuard
peer adapter, Route adapter, Bridge FDB adapter (the trace is always an
initial segment of that sequence), and whenever it returns an outcome map the
map's keys are exactly `Wireguard`, `Route`, `Bridge FDB` in that order. -/
theorem C5_adapter_order_and_keys (k : Kernel) (c : WireGuardClient) :
    (link_handler k c).trace =
      List.take (link_handler k c).trace.length
        [("update_wireguard_peer", c.public_key), ("route_handler", c.public_key),
         ("bridge_fdb_handler", c.public_key)] ∧
    ∀ m, (link_handler k c).result = .ok m →
      m.map Prod.fst = ["Wireguard", "Route", "Bridge FDB"] := by
  unfold link_handler
  cases hu : update_wireguard_peer k c with
  | error e => exact ⟨rfl, fun m hm => by simp at hm⟩
  | ok w =>
    cases hr : route_handler k c with
    | ok r =>
      cases hf : bridge_fdb_handler k c with
      | error e => exact ⟨rfl, fun m hm => by simp at hm⟩
      | ok b =>
        refine ⟨rfl, fun m hm => ?_⟩
        simp only [Except.ok.injEq] at hm
        subst hm
        rfl
    | error e =>
      cases hf : bridge_fdb_handler k c with
      | error e2 => exact ⟨rfl, fun m hm => by simp at hm⟩
      | ok b =>
        refine ⟨rfl, fun m hm => ?_⟩
        simp only [Except.ok.injEq] at hm
        subst hm
        rfl

/-- C5 witness: a fully working kernel returns the three-key outcome map in
adapter order. -/
theorem C5_adapter_order_and_keys_witness :
    (link_handler ⟨[("wg-dom", 3), ("vx-dom", 4)], [("wg-dom", [])], []⟩
        (WireGuardClient.mk "okkey" "dom" false)).result =
      .ok [("Wireguard", .val (.wgSet "wg-dom" "okkey" "fe80::a9:acff:fe9d:3ad6/128" false)),
           ("Route", .val (.routeOp "replace" "fe80::a9:acff:fe9d:3ad6/128" 3)),
           ("Bridge FDB", .val (.fdbOp "append" 4 "00:00:00:00:00:00"
             "fe80::a9:acff:fe9d:3ad6" 3))] ∧
    ([("Wireguard", EntryVal.val (.wgSet "wg-dom" "okkey" "fe80::a9:acff:fe9d:3ad6/128" false)),
      ("Route", EntryVal.val (.routeOp "replace" "fe80::a9:acff:fe9d:3ad6/128" 3)),
      ("Bridge FDB", EntryVal.val (.fdbOp "append" 4 "00:00:00:00:00:00"
        "fe80::a9:acff:fe9d:3ad6" 3))].map Prod.fst = ["Wireguard", "Route", "Bridge FDB"]) :=
  ⟨by decide,
    (C5_adapter_order_and_keys ⟨[("wg-dom", 3), ("vx-dom", 4)], [("wg-dom", [])], []⟩
      (WireGuardClient.mk "okkey" "dom" false)).2 _ (by decide)⟩

/-! ## Lemmas and claims about the sweep body (C6) and kernel failures (C8) -/

theorem link_handler_ok_parts (k : Kernel) (c : WireGuardClient)
    (hu : isOkE (update_wireguard_peer k c) = true)
    (hf : isOkE (bridge_fdb_handler k c) = true) :
    (link_handler k c).trace =
      [("update_wireguard_peer", c.public_key), ("route_handler", c.public_key),
       ("bridge_fdb_handler", c.public_key)] ∧
    ∃ m, (link_handler k c).result = .ok m := by
  unfold link_handler
  cases hu' : update_wireguard_peer k c with
  | error e => rw [hu'] at hu; cases hu
  | ok w =>
    cases hf' : bridge_fdb_handler k c with
    | error e => rw [hf'] at hf; cases hf
    | ok b =>
      cases hr : route_handler k c with
      | ok r => exact ⟨rfl, _, rfl⟩
      | error e => exact ⟨rfl, _, rfl⟩

theorem flushLoop_all_ok (k : Kernel) (cs : List WireGuardClient)
    (hok : ∀ c ∈ cs, isOkE (update_wireguard_peer k c) = true ∧
      isOkE (bridge_fdb_handler k c) = true) :
    (∃ ms, (flushLoop k cs).result = .ok ms ∧ ms.length = cs.length) ∧
    ∀ c ∈ cs, ("update_wireguard_peer", c.public_key) ∈ (flushLoop k cs).trace := by
  induction cs with
  | nil => exact ⟨⟨[], rfl, rfl⟩, fun c hc => absurd hc (List.not_mem_nil c)⟩
  | cons c cs ih =>
    obtain ⟨hu, hf⟩ := hok c (by simp)
    obtain ⟨htr, m, hm⟩ := link_handler_ok_parts k c hu hf
    obtain ⟨⟨ms, hms, hlen⟩, hmem⟩ := ih (fun x hx => hok x (List.mem_cons_of_mem c hx))
    constructor
    · refine ⟨m :: ms, ?_, by simp [hlen]⟩
      simp only [flushLoop, hm, hms]
      rfl
    · intro x hx
      simp only [flushLoop, hm]
      rcases List.mem_cons.mp hx with rfl | hxs
      · rw [htr]
        simp
      · exact List.mem_append.mpr (.inr (hmem x hxs))

/-- C6 (amended): a Route-adapter failure is caught inside `link_handler` and
never blocks the remaining peers, and when the WireGuard and FDB adapters
succeed for every stale peer of the tick, `wg_flush_stale_peers` processes
them all (one outcome map per stale peer, every peer reconciled); but an
error propagating out of `link_handler` aborts the tick inside the list
comprehension, so the remaining peers are not processed (see the
counterexample). -/
theorem C6_flush_processes_all_when_no_propagating_error (k : Kernel) (nowTs : Int)
    (domain : String) (pks : List String)
    (hfind : find_stale_wireguard_clients k nowTs ("wg-" ++ domain) = .ok pks)
    (hok : ∀ pk ∈ pks,
      isOkE (update_wireguard_peer k (WireGuardClient.mk pk domain true)) = true ∧
      isOkE (bridge_fdb_handler k (WireGuardClient.mk pk domain true)) = true) :
    (∃ ms, (wg_flush_stale_peers k nowTs domain).result = .ok ms ∧ ms.length = pks.length) ∧
    ∀ pk ∈ pks, ("update_wireguard_peer", pk) ∈ (wg_flush_stale_peers k nowTs domain).trace := by
  unfold wg_flush_stale_peers
  rw [hfind]
  have hok' : ∀ c ∈ pks.map (fun pk => WireGuardClient.mk pk domain true),
      isOkE (update_wireguard_peer k c) = true ∧ isOkE (bridge_fdb_handler k c) = true := by
    intro c hc
    obtain ⟨pk, hpk, rfl⟩ := List.mem_map.mp hc
    exact hok pk hpk
  obtain ⟨⟨ms, hms, hlen⟩, hmem⟩ := flushLoop_all_ok k _ hok'
  refine ⟨⟨ms, hms, by simpa using hlen⟩, fun pk hpk => ?_⟩
  exact hmem (WireGuardClient.mk pk domain true) (List.mem_map.mpr ⟨pk, hpk, rfl⟩)

/-- C6 witness: two stale peers, both with working WireGuard and FDB
adapters; the Route deletions fail and are caught, and both peers are still
processed in the same tick. -/
theorem C6_flush_processes_all_witness :
    find_stale_wireguard_clients
        ⟨[("wg-d", 3), ("vx-d", 4)], [("wg-d", [⟨some [⟨"A", some ⟨some 5⟩⟩,
          ⟨"B", some ⟨some 5⟩⟩]⟩])], []⟩ 1700000000 ("wg-" ++ "d") = .ok ["A", "B"] ∧
    ((∃ ms, (wg_flush_stale_peers ⟨[("wg-d", 3), ("vx-d", 4)], [("wg-d", [⟨some [⟨"A", some ⟨some 5⟩⟩,
          ⟨"B", some ⟨some 5⟩⟩]⟩])], []⟩ 1700000000 "d").result = .ok ms ∧ ms.length = 2) ∧
      ∀ pk ∈ (["A", "B"] : List String), ("update_wireguard_peer", pk) ∈
        (wg_flush_stale_peers ⟨[("wg-d", 3), ("vx-d", 4)], [("wg-d", [⟨some [⟨"A", some ⟨some 5⟩⟩,
          ⟨"B", some ⟨some 5⟩⟩]⟩])], []⟩ 1700000000 "d").trace) :=
  ⟨by decide,
    C6_flush_processes_all_when_no_propagating_error
      ⟨[("wg-d", 3), ("vx-d", 4)], [("wg-d", [⟨some [⟨"A", some ⟨some 5⟩⟩,
        ⟨"B", some ⟨some 5⟩⟩]⟩])], []⟩ 1700000000 "d" ["A", "B"]
      (by decide) (by decide)⟩

/-- C6 counterexample: both peers `A` and `B` are reported stale, but the
missing VxLAN interface makes `bridge_fdb_handler` raise while reconciling
`A`; the exception propagates out of `wg_flush_stale_peers` and peer `B` of
the same tick is never processed (no trace entry mentions it), refuting the
claim that one peer's failure never blocks the others in the tick. -/
theorem C6_counterexample :
    find_stale_wireguard_clients ⟨[("wg-d", 3)], [("wg-d", [⟨some [⟨"A", some ⟨some 5⟩⟩,
        ⟨"B", some ⟨some 5⟩⟩]⟩])], []⟩ 1700000000 ("wg-" ++ "d") = .ok ["A", "B"] ∧
    wg_flush_stale_peers ⟨[("wg-d", 3)], [("wg-d", [⟨some [⟨"A", some ⟨some 5⟩⟩,
        ⟨"B", some ⟨some 5⟩⟩]⟩])], []⟩ 1700000000 "d" =
      ⟨[("update_wireguard_peer", "A"), ("route_handler", "A"), ("bridge_fdb_handler", "A")],
       .error .indexError⟩ :=
  ⟨by decide, by decide⟩

theorem collectClients_eq_nil (msgs : List WgDeviceMsg)
    (h : ∀ m ∈ msgs, m.peers = none ∨ m.peers = some []) : collectClients msgs = [] := by
  unfold collectClients
  suffices hgen : ∀ acc : List WgPeerMsg,
      msgs.foldl (fun all m =>
        match m.peers with
        | none => all
        | some clients => if clients.isEmpty then all else all ++ clients) acc = acc by
    exact hgen []
  induction msgs with
  | nil => intro acc; rfl
  | cons m t ih =>
    intro acc
    have hm := h m (by simp)
    have ih' := ih (fun x hx => h x (List.mem_cons_of_mem m hx))
    rcases hm with hm | hm <;> simp only [List.foldl_cons, hm] <;> exact ih' acc

/-- C8 (amended): when the named interface does not exist each operation
fails — `update_wireguard_peer` with the kernel rejection `NetlinkError(19)`,
`route_handler` and `bridge_fdb_handler` with the `IndexError` raised by
indexing the empty `link_lookup` result, `find_stale_wireguard_clients` with
`NetlinkError(19)` — and a rejected route deletion fails with
`NetlinkError(3)`; none of these errors is a dedicated `KernelInterfaceError`
carrying the subsystem and interface (no such type exists in the code; see
the counterexample).  An existing interface with no peers is not an error:
the detector returns the empty list. -/
theorem C8_kernel_errors (k : Kernel) (c : WireGuardClient) :
    (∀ l, c.lladdr = some l → k.wgInfo c.wg_interface = none →
      update_wireguard_peer k c = .error (.netlinkError 19)) ∧
    (∀ l, c.lladdr = some l → k.link_lookup c.wg_interface = [] →
      route_handler k c = .error .indexError) ∧
    (k.link_lookup c.vx_interface = [] → bridge_fdb_handler k c = .error .indexError) ∧
    (∀ l oif rest, c.lladdr = some l → k.link_lookup c.wg_interface = oif :: rest →
      c.remove = true → l ∉ k.routes → route_handler k c = .error (.netlinkError 3)) ∧
    (∀ iface msgs nowTs, k.wgInfo iface = some msgs →
      (∀ m ∈ msgs, m.peers = none ∨ m.peers = some []) →
      find_stale_wireguard_clients k nowTs iface = .ok []) ∧
    (∀ iface nowTs, k.wgInfo iface = none →
      find_stale_wireguard_clients k nowTs iface = .error (.netlinkError 19)) := by
  refine ⟨?_, ?_, ?_, ?_, ?_, ?_⟩
  · intro l hl hinfo
    unfold update_wireguard_peer
    rw [hl, hinfo]
  · intro l hl hlk
    unfold route_handler
    rw [hl, hlk]
  · intro hlk
    unfold bridge_fdb_handler
    rw [hlk]
  · intro l oif rest hl hlk hrm hmem
    unfold route_handler
    rw [hl, hlk, hrm]
    simp [hmem]
  · intro iface msgs nowTs hinfo hempty
    unfold find_stale_wireguard_clients
    simp only [hinfo, collectClients_eq_nil msgs hempty]
    rfl
  · intro iface nowTs hinfo
    unfold find_stale_wireguard_clients
    simp only [hinfo]

/-- C8 witness: the amended statement instantiated on an empty kernel (all
lookups fail), on a kernel whose route table lacks the address to delete, and
on a device whose dump has no peers. -/
theorem C8_kernel_errors_witness :
    update_wireguard_peer ⟨[], [], []⟩ (WireGuardClient.mk "k8" "one" false) =
      .error (.netlinkError 19) ∧
    route_handler ⟨[], [], []⟩ (WireGuardClient.mk "k8" "one" false) = .error .indexError ∧
    bridge_fdb_handler ⟨[], [], []⟩ (WireGuardClient.mk "k8" "one" false) =
      .error .indexError ∧
    route_handler ⟨[("wg-one", 7)], [], []⟩ (WireGuardClient.mk "k8" "one" true) =
      .error (.netlinkError 3) ∧
    find_stale_wireguard_clients ⟨[], [("wg-one", [⟨none⟩, ⟨some []⟩])], []⟩ 1700000000
      "wg-one" = .ok [] ∧
    find_stale_wireguard_clients ⟨[], [], []⟩ 1700000000 "wg-one" =
      .error (.netlinkError 19) :=
  ⟨(C8_kernel_errors ⟨[], [], []⟩ (WireGuardClient.mk "k8" "one" false)).1
      "fe80::a3:9cff:fe0b:137e/128" (by decide) (by decide),
   (C8_kernel_errors ⟨[], [], []⟩ (WireGuardClient.mk "k8" "one" false)).2.1
      "fe80::a3:9cff:fe0b:137e/128" (by decide) (by decide),
   (C8_kernel_errors ⟨[], [], []⟩ (WireGuardClient.mk "k8" "one" false)).2.2.1 (by decide),
   (C8_kernel_errors ⟨[("wg-one", 7)], [], []⟩ (WireGuardClient.mk "k8" "one" true)).2.2.2.1
      "fe80::a3:9cff:fe0b:137e/128" 7 [] (by decide) (by decide) (by decide) (by decide),
   (C8_kernel_errors ⟨[], [("wg-one", [⟨none⟩, ⟨some []⟩])], []⟩
      (WireGuardClient.mk "k8" "one" false)).2.2.2.2.1 "wg-one" [⟨none⟩, ⟨some []⟩]
      1700000000 (by decide) (by decide),
   (C8_kernel_errors ⟨[], [], []⟩ (WireGuardClient.mk "k8" "one" false)).2.2.2.2.2 "wg-one"
      1700000000 (by decide)⟩

/-- C8 counterexample: two different missing interfaces yield the very same
error value (`IndexError` with no payload), so the raised error cannot carry
which interface (or subsystem) failed — there is no `KernelInterfaceError` in
the code. -/
theorem C8_counterexample :
    route_handler ⟨[], [], []⟩ (WireGuardClient.mk "k8" "one" false) = .error .indexError ∧
    route_handler ⟨[], [], []⟩ (WireGuardClient.mk "k8" "two" false) = .error .indexError ∧
    (WireGuardClient.mk "k8" "one" false).wg_interface ≠
      (WireGuardClient.mk "k8" "two" false).wg_interface :=
  ⟨by decide, by decide, by decide⟩

/-- Check against the standard MD5 test vector for the empty message. -/
theorem md5_vector_empty : String.mk (md5hex []) = "d41d8cd98f00b204e9800998ecf8427e" := by decide

/-- Check against the standard MD5 test vector for the message `abc`. -/
theorem md5_vector_abc :
    String.mk (md5hex [97, 98, 99]) = "900150983cd24fb0d6963f7d28e17f72" := by decide

end Wgkex
